import Mathlib

/-!
# catshadow: the contact record, its exchange envelope and its persistence codec

A shallow embedding of `contact.go` (package `catshadow`).

The file has three layers.

* The data model of `contact.go` and its six functions, written over a record
  `World` of the collaborators the Go code calls but does not define: the CBOR
  codec (`github.com/ugorji/go/codec` with the package-level `cborHandle`), the
  double ratchet (`github.com/katzenpost/doubleratchet`), the spool channels
  (`github.com/katzenpost/channels`) and the random source
  (`github.com/katzenpost/core/crypto/rand`).
* The reference codec, a CBOR (RFC 8949) map codec that reads by Go field name,
  and concrete worlds used to evaluate the functions: `refWorld`, and a variant
  of it in which the random source is unavailable.
* The theorems.

Conventions. A Go method with a pointer receiver takes the receiver's state and
returns the state it leaves behind next to its results. A Go pointer is an
`Option` (`none` is `nil`); a pointer handed to a collaborator is handed over as
it is. A Go `(value, error)` result is an `Except`; a lone `error` result is an
`Option Error` (`none` is a `nil` error). Every collaborator call is taken to
return: a run-time panic inside a collaborator is outside the model.
-/

set_option linter.unusedVariables false
set_option maxRecDepth 100000

namespace Catshadow

/-! ## Values shared by every layer -/

/-- A byte sequence: a Go `[]byte`, each element one octet. A `nil` slice and an
empty one are both `[]`. -/
abbrev Bytes := List Nat

/-- A Go `string`: an immutable sequence of octets. -/
abbrev GoString := List Nat

/-- A Go `error` value. -/
structure Error where
  msg : String
deriving DecidableEq, Repr

deriving instance DecidableEq for Except

/-- A Go pointer; `none` is `nil`. -/
abbrev Ptr (α : Type) := Option α

/-- A Go `chan struct{}`, identified by the order of its allocation. -/
abbrev Chan := Nat

/-- The allocator behind `make(chan struct{})`: every channel numbered below
`nextChan` has been handed out, none at or above it. -/
structure Heap where
  nextChan : Nat
deriving DecidableEq, Repr

/-- The Go expression `make(chan struct{})`: a channel never handed out before. -/
def makeChan (heap : Heap) : Chan × Heap :=
  (heap.nextChan, { nextChan := heap.nextChan + 1 })

/-! ## Types owned by the collaborators

`contact.go` only stores, forwards and serialises values of these types; it
never looks inside. Each is represented by the bytes of its own state. -/

/-- The type `channels.UnreliableSpoolWriterChannel`. -/
structure channels.UnreliableSpoolWriterChannel where
  raw : Bytes
deriving DecidableEq, Repr

/-- The type `channels.UnreliableSpoolReaderChannel`. -/
structure channels.UnreliableSpoolReaderChannel where
  raw : Bytes
deriving DecidableEq, Repr

/-- The type `ratchet.SignedKeyExchange`. -/
structure ratchet.SignedKeyExchange where
  raw : Bytes
deriving DecidableEq, Repr

/-- The type `ratchet.Ratchet`: the state of one double ratchet. -/
structure ratchet.Ratchet where
  state : Bytes
deriving DecidableEq, Repr

/-- The type `session.Session`. -/
structure session.Session where
  handle : Nat
deriving DecidableEq, Repr

/-- The state of an `io.Reader` of random octets such as `rand.Reader`. -/
structure rand.Source where
  seed : Nat
deriving DecidableEq, Repr

/-! ## The data model of `contact.go` -/

/-- The Go struct `contactExchange` (contact.go:29-32). -/
structure contactExchange where
  SpoolWriter : Ptr channels.UnreliableSpoolWriterChannel
  SignedKeyExchange : Ptr ratchet.SignedKeyExchange
deriving DecidableEq, Repr

/-- The Go struct `serializedContact` (contact.go:57-66). `ID` is a `uint64`. -/
structure serializedContact where
  ID : Nat
  Nickname : GoString
  IsPending : Bool
  KeyExchange : Bytes
  PandaKeyExchange : Bytes
  PandaResult : GoString
  Ratchet : Bytes
  SpoolWriterChan : Ptr channels.UnreliableSpoolWriterChannel
deriving DecidableEq, Repr

/-- The Go struct `Contact` (contact.go:70-93), fields in the order of the
source. `id` is a `uint64`. -/
structure Contact where
  id : Nat
  nickname : GoString
  isPending : Bool
  keyExchange : Bytes
  pandaKeyExchange : Bytes
  pandaShutdownChan : Ptr Chan
  pandaResult : GoString
  ratchet : Ptr ratchet.Ratchet
  spoolWriterChan : Ptr channels.UnreliableSpoolWriterChannel
deriving DecidableEq, Repr

/-- The value of `new(contactExchange)`: every field zero. -/
def contactExchange.zero : contactExchange :=
  { SpoolWriter := none, SignedKeyExchange := none }

/-- The value of `new(serializedContact)`: every field zero. -/
def serializedContact.zero : serializedContact :=
  { ID := 0, Nickname := [], IsPending := false, KeyExchange := [], PandaKeyExchange := [],
    PandaResult := [], Ratchet := [], SpoolWriterChan := none }

/-- The value of `new(Contact)`: every field zero. -/
def Contact.zero : Contact :=
  { id := 0, nickname := [], isPending := false, keyExchange := [], pandaKeyExchange := [],
    pandaShutdownChan := none, pandaResult := [], ratchet := none, spoolWriterChan := none }

/-! ## The collaborators -/

/-- What `contact.go` calls and does not define.

The two `decode` functions stand for `codec.NewDecoderBytes(data, cborHandle).Decode(dst)`:
they take the destination as it is before the call and return it as the decoder
leaves it. The two `encode` functions stand for
`codec.NewEncoderBytes(&serialized, cborHandle).Encode(v)` and return `serialized`.
`CreateKeyExchange` returns the signed key exchange and the state in which it
leaves the ratchet it was called on; `ratchetUnmarshalBinary` returns the state
in which a successful restore leaves its receiver.

One world fixes the outcome of every call. No function of `contact.go` calls the
same collaborator twice, so a function of the arguments is enough for each. -/
structure World where
  /-- The variable `rand.Reader`. -/
  randReader : rand.Source
  /-- The function `ratchet.New`. -/
  ratchetNew : rand.Source → Except Error (Ptr ratchet.Ratchet)
  /-- The method `(*ratchet.Ratchet).CreateKeyExchange`. -/
  CreateKeyExchange :
    Ptr ratchet.Ratchet → Except Error (Ptr ratchet.SignedKeyExchange × Ptr ratchet.Ratchet)
  /-- The method `(*ratchet.Ratchet).MarshalBinary`. -/
  ratchetMarshalBinary : Ptr ratchet.Ratchet → Except Error Bytes
  /-- The method `(*ratchet.Ratchet).UnmarshalBinary`. -/
  ratchetUnmarshalBinary : Ptr ratchet.Ratchet → Bytes → Except Error (Ptr ratchet.Ratchet)
  /-- The method `(*channels.UnreliableSpoolReaderChannel).GetSpoolWriter`. -/
  GetSpoolWriter :
    Ptr channels.UnreliableSpoolReaderChannel → Ptr channels.UnreliableSpoolWriterChannel
  /-- The CBOR encoder applied to a `contactExchange`. -/
  encodeExchange : contactExchange → Except Error Bytes
  /-- The CBOR decoder applied to a `*contactExchange` destination. -/
  decodeExchange : Bytes → contactExchange → Except Error contactExchange
  /-- The CBOR encoder applied to a `*serializedContact`. -/
  encodeContact : serializedContact → Except Error Bytes
  /-- The CBOR decoder applied to a `*serializedContact` destination. -/
  decodeContact : Bytes → serializedContact → Except Error serializedContact

/-! ## The functions of `contact.go` -/

/-- The function `NewContactExchangeBytes` (contact.go:35-46). -/
def NewContactExchangeBytes (w : World)
    (spoolWriter : Ptr channels.UnreliableSpoolWriterChannel)
    (signedKeyExchange : Ptr ratchet.SignedKeyExchange) : Except Error Bytes :=
  let exchange : contactExchange :=
    { SpoolWriter := spoolWriter, SignedKeyExchange := signedKeyExchange }
  match w.encodeExchange exchange with
  | .error err => .error err
  | .ok serialized => .ok serialized

/-- The function `parseContactExchangeBytes` (contact.go:48-55). -/
def parseContactExchangeBytes (w : World) (contactExchangeBytes : Bytes) :
    Except Error contactExchange :=
  let exchange := contactExchange.zero
  match w.decodeExchange contactExchangeBytes exchange with
  | .error err => .error err
  | .ok exchange => .ok exchange

/-- The function `NewContact` (contact.go:96-118). The second component is the
allocator as the call leaves it. -/
def NewContact (w : World) (heap : Heap) (nickname : GoString) (id : Nat)
    (spoolReaderChan : Ptr channels.UnreliableSpoolReaderChannel)
    (session : Ptr session.Session) : Except Error Contact × Heap :=
  match w.ratchetNew w.randReader with
  | .error err => (.error err, heap)
  | .ok ratchet =>
    match w.CreateKeyExchange ratchet with
    | .error err => (.error err, heap)
    | .ok (signedKeyExchange, ratchet) =>
      let spoolWriterChan := w.GetSpoolWriter spoolReaderChan
      match NewContactExchangeBytes w spoolWriterChan signedKeyExchange with
      | .error err => (.error err, heap)
      | .ok exchange =>
        let alloc := makeChan heap
        (.ok { Contact.zero with
                nickname := nickname
                id := id
                isPending := true
                ratchet := ratchet
                keyExchange := exchange
                pandaShutdownChan := some alloc.1 },
         alloc.2)

/-- The method `(*Contact).ID` (contact.go:121-123). -/
def Contact.ID (c : Contact) : Nat :=
  c.id

/-- The method `(*Contact).MarshalBinary` (contact.go:127-148). The second
component is the receiver as the call leaves it. -/
def Contact.MarshalBinary (w : World) (c : Contact) : Except Error Bytes × Contact :=
  match w.ratchetMarshalBinary c.ratchet with
  | .error err => (.error err, c)
  | .ok ratchetBlob =>
    let s : serializedContact :=
      { ID := c.id
        Nickname := c.nickname
        IsPending := c.isPending
        KeyExchange := c.keyExchange
        PandaKeyExchange := c.pandaKeyExchange
        PandaResult := c.pandaResult
        Ratchet := ratchetBlob
        SpoolWriterChan := c.spoolWriterChan }
    match w.encodeContact s with
    | .error err => (.error err, c)
    | .ok serialized => (.ok serialized, c)

/-- The method `(*Contact).UnmarshalBinary` (contact.go:153-180). The first
component is the returned `error`, the second the receiver as the call leaves it. -/
def Contact.UnmarshalBinary (w : World) (c : Contact) (data : Bytes) : Option Error × Contact :=
  match w.ratchetNew w.randReader with
  | .error err => (some err, c)
  | .ok r =>
    let s := serializedContact.zero
    match w.decodeContact data s with
    | .error err => (some err, c)
    | .ok s =>
      match w.ratchetUnmarshalBinary r s.Ratchet with
      | .error err => (some err, c)
      | .ok r =>
        (none,
         { c with
            id := s.ID
            nickname := s.Nickname
            isPending := s.IsPending
            keyExchange := s.KeyExchange
            pandaKeyExchange := s.PandaKeyExchange
            pandaResult := s.PandaResult
            ratchet := r
            spoolWriterChan := s.SpoolWriterChan })

/-! ## The reference codec and a reference world

The sources of the collaborators are not part of the repository. The theorems
about `contact.go` hold for every `World`, unless they name the codec below.

The reference codec reads a Go struct the way the decoder of the CBOR handle
does by default: the input is one CBOR (RFC 8949) map with a text-string key per
field, the Go field name; each pair is stored into the field its key names; a
key that names no field is skipped; a field whose key is absent from the map
keeps the value the destination had. An unsigned integer is major type 0, a
`[]byte` major type 2, a `string` major type 3, a `bool` the simple value 20 or
21, a `nil` pointer the simple value 22. The reference encoder writes the pairs
in the order of declaration and a value of a collaborator's own type as one byte
string; the order of the pairs and the form of those values are the library's
own matter, and a reader by key depends on neither.

`refWorld` is one world, used to run the functions at concrete inputs: the
reference codec with a ratchet, a spool and a random source that are stand-ins.
The persisted form of its ratchet, a version octet followed by the state, is not
the form of the library. -/

namespace Cbor

/-- The value of a run of octets read as a big-endian number. -/
def beNat (bs : Bytes) : Nat :=
  bs.foldl (fun acc b => acc * 256 + b) 0

/-- The head of a data item with major type `m` and argument `n`, in the
shortest of the five forms. -/
def encodeHead (m n : Nat) : Bytes :=
  if n < 24 then [m * 32 + n]
  else if n < 256 then [m * 32 + 24, n]
  else if n < 65536 then [m * 32 + 25, n / 256, n % 256]
  else if n < 4294967296 then
    [m * 32 + 26, n / 16777216 % 256, n / 65536 % 256, n / 256 % 256, n % 256]
  else
    [m * 32 + 27, n / 72057594037927936 % 256, n / 281474976710656 % 256,
      n / 1099511627776 % 256, n / 4294967296 % 256, n / 16777216 % 256,
      n / 65536 % 256, n / 256 % 256, n % 256]

/-- The head of a data item as read: major type, additional information,
argument, and the octets after the head. -/
structure Head where
  major : Nat
  info : Nat
  arg : Nat
  rest : Bytes
deriving DecidableEq, Repr

/-- How many octets of argument follow an initial octet with additional
information `info` (24 to 27). -/
def argWidth (info : Nat) : Nat :=
  if info = 24 then 1 else if info = 25 then 2 else if info = 26 then 4 else 8

/-- Reads one head. Additional information 28 to 31 (reserved, and the
indefinite lengths) is refused, as is a truncated argument. -/
def decodeHead : Bytes → Option Head
  | [] => none
  | b :: rest =>
    if 256 ≤ b then none
    else if b % 32 < 24 then
      some { major := b / 32, info := b % 32, arg := b % 32, rest := rest }
    else if 27 < b % 32 then none
    else if rest.length < argWidth (b % 32) then none
    else
      some { major := b / 32, info := b % 32, arg := beNat (rest.take (argWidth (b % 32))),
             rest := rest.drop (argWidth (b % 32)) }

/-- The data items a field of the two structs can hold. -/
inductive Item where
  | uint (n : Nat)
  | bstr (b : Bytes)
  | tstr (b : Bytes)
  | bool (b : Bool)
  | null
deriving DecidableEq, Repr

/-- Writes one data item. -/
def encodeItem : Item → Bytes
  | .uint n => encodeHead 0 n
  | .bstr b => encodeHead 2 b.length ++ b
  | .tstr b => encodeHead 3 b.length ++ b
  | .bool false => [244]
  | .bool true => [245]
  | .null => [246]

/-- Reads one data item and returns it with the octets after it. -/
def decodeItem (bs : Bytes) : Option (Item × Bytes) :=
  match decodeHead bs with
  | none => none
  | some h =>
    if h.major = 0 then some (.uint h.arg, h.rest)
    else if h.major = 2 then
      if h.rest.length < h.arg then none else some (.bstr (h.rest.take h.arg), h.rest.drop h.arg)
    else if h.major = 3 then
      if h.rest.length < h.arg then none else some (.tstr (h.rest.take h.arg), h.rest.drop h.arg)
    else if h.major = 7 then
      if h.info = 20 then some (.bool false, h.rest)
      else if h.info = 21 then some (.bool true, h.rest)
      else if h.info = 22 then some (.null, h.rest)
      else none
    else none

/-- Reads `n` key and value pairs; a key is a text string. -/
def decodePairs : Nat → Bytes → Option (List (Bytes × Item))
  | 0, _ => some []
  | n + 1, bs =>
    match decodeItem bs with
    | some (.tstr k, afterKey) =>
      match decodeItem afterKey with
      | some (v, afterValue) =>
        match decodePairs n afterValue with
        | some kvs => some ((k, v) :: kvs)
        | none => none
      | none => none
    | _ => none

/-- Reads one definite-length map: its pairs in the order of the input. Octets
after the map are not looked at. -/
def decodeMap (bs : Bytes) : Option (List (Bytes × Item)) :=
  match decodeHead bs with
  | some h => if h.major = 5 then decodePairs h.arg h.rest else none
  | none => none

/-- Writes a map of the given pairs. -/
def encodeMap (kvs : List (Bytes × Item)) : Bytes :=
  encodeHead 5 kvs.length ++ (kvs.map fun kv => encodeItem (.tstr kv.1) ++ encodeItem kv.2).flatten

/-- An item whose argument fits the eight-octet form of a head: what a Go
`uint64` or the length of a Go slice or string always satisfies. -/
def Item.Sized : Item → Prop
  | .uint n => n < 18446744073709551616
  | .bstr b => b.length < 18446744073709551616
  | .tstr b => b.length < 18446744073709551616
  | .bool _ => True
  | .null => True

/-- Pairs whose keys and values all fit the eight-octet form of a head. -/
def Sized (kvs : List (Bytes × Item)) : Prop :=
  ∀ kv ∈ kvs, kv.1.length < 18446744073709551616 ∧ kv.2.Sized

/-- The octets of a byte string or text string; `null` reads as the empty one. -/
def Item.octets : Item → Option Bytes
  | .bstr b => some b
  | .tstr b => some b
  | .null => some []
  | _ => none

/-- The value of a `uint64` field; `null` reads as zero. -/
def Item.number : Item → Option Nat
  | .uint n => some n
  | .null => some 0
  | _ => none

/-- The value of a `bool` field; `null` reads as false. -/
def Item.truth : Item → Option Bool
  | .bool b => some b
  | .null => some false
  | _ => none

/-- The value of a pointer field whose pointee travels as one byte string. -/
def Item.pointee : Item → Option (Ptr Bytes)
  | .bstr b => some (some b)
  | .null => some none
  | _ => none

/-- The key "ID". -/
def keyID : Bytes := [73, 68]
/-- The key "Nickname". -/
def keyNickname : Bytes := [78, 105, 99, 107, 110, 97, 109, 101]
/-- The key "IsPending". -/
def keyIsPending : Bytes := [73, 115, 80, 101, 110, 100, 105, 110, 103]
/-- The key "KeyExchange". -/
def keyKeyExchange : Bytes := [75, 101, 121, 69, 120, 99, 104, 97, 110, 103, 101]
/-- The key "PandaKeyExchange". -/
def keyPandaKeyExchange : Bytes :=
  [80, 97, 110, 100, 97, 75, 101, 121, 69, 120, 99, 104, 97, 110, 103, 101]
/-- The key "PandaResult". -/
def keyPandaResult : Bytes := [80, 97, 110, 100, 97, 82, 101, 115, 117, 108, 116]
/-- The key "Ratchet". -/
def keyRatchet : Bytes := [82, 97, 116, 99, 104, 101, 116]
/-- The key "SpoolWriterChan". -/
def keySpoolWriterChan : Bytes :=
  [83, 112, 111, 111, 108, 87, 114, 105, 116, 101, 114, 67, 104, 97, 110]
/-- The key "SpoolWriter". -/
def keySpoolWriter : Bytes := [83, 112, 111, 111, 108, 87, 114, 105, 116, 101, 114]
/-- The key "SignedKeyExchange". -/
def keySignedKeyExchange : Bytes :=
  [83, 105, 103, 110, 101, 100, 75, 101, 121, 69, 120, 99, 104, 97, 110, 103, 101]

/-- The pairs written for a `contactExchange`. -/
def exchangePairs (e : contactExchange) : List (Bytes × Item) :=
  [(keySpoolWriter, match e.SpoolWriter with | some p => .bstr p.raw | none => .null),
   (keySignedKeyExchange, match e.SignedKeyExchange with | some p => .bstr p.raw | none => .null)]

/-- Stores one pair read from the input into a `contactExchange`. -/
def setExchangeField (e : contactExchange) (k : Bytes) (v : Item) : Option contactExchange :=
  if k = keySpoolWriter then
    v.pointee.map fun p => { e with SpoolWriter := p.map fun raw => { raw := raw } }
  else if k = keySignedKeyExchange then
    v.pointee.map fun p => { e with SignedKeyExchange := p.map fun raw => { raw := raw } }
  else some e

/-- Stores the pairs read from the input, first to last. -/
def setExchangeFields : contactExchange → List (Bytes × Item) → Option contactExchange
  | e, [] => some e
  | e, (k, v) :: kvs =>
    match setExchangeField e k v with
    | some e1 => setExchangeFields e1 kvs
    | none => none

/-- The pairs written for a `serializedContact`. -/
def contactPairs (s : serializedContact) : List (Bytes × Item) :=
  [(keyID, .uint s.ID),
   (keyNickname, .tstr s.Nickname),
   (keyIsPending, .bool s.IsPending),
   (keyKeyExchange, .bstr s.KeyExchange),
   (keyPandaKeyExchange, .bstr s.PandaKeyExchange),
   (keyPandaResult, .tstr s.PandaResult),
   (keyRatchet, .bstr s.Ratchet),
   (keySpoolWriterChan, match s.SpoolWriterChan with | some p => .bstr p.raw | none => .null)]

/-- Stores one pair read from the input into a `serializedContact`. -/
def setContactField (s : serializedContact) (k : Bytes) (v : Item) : Option serializedContact :=
  if k = keyID then v.number.map fun n => { s with ID := n }
  else if k = keyNickname then v.octets.map fun b => { s with Nickname := b }
  else if k = keyIsPending then v.truth.map fun b => { s with IsPending := b }
  else if k = keyKeyExchange then v.octets.map fun b => { s with KeyExchange := b }
  else if k = keyPandaKeyExchange then v.octets.map fun b => { s with PandaKeyExchange := b }
  else if k = keyPandaResult then v.octets.map fun b => { s with PandaResult := b }
  else if k = keyRatchet then v.octets.map fun b => { s with Ratchet := b }
  else if k = keySpoolWriterChan then
    v.pointee.map fun p => { s with SpoolWriterChan := p.map fun raw => { raw := raw } }
  else some s

/-- Stores the pairs read from the input, first to last. -/
def setContactFields : serializedContact → List (Bytes × Item) → Option serializedContact
  | s, [] => some s
  | s, (k, v) :: kvs =>
    match setContactField s k v with
    | some s1 => setContactFields s1 kvs
    | none => none

/-- The keys of the map that `data` holds, when it holds one. -/
def mapKeys (data : Bytes) : Option (List Bytes) :=
  (decodeMap data).map fun kvs => kvs.map Prod.fst

end Cbor

/-- The error of the reference decoder on input that is not a map it can read
into the destination. -/
def errDecode : Error := { msg := "cbor: cannot decode into the struct" }

/-- The error of the reference ratchet on a blob that is not its persisted form. -/
def errRatchetRestore : Error := { msg := "ratchet: cannot restore the state" }

/-- The error of the reference ratchet called through a nil pointer. -/
def errNilRatchet : Error := { msg := "ratchet: nil receiver" }

/-- The error of a random source that is unavailable. -/
def errNoRandom : Error := { msg := "rand: source unavailable" }

/-- The reference encoder for a `contactExchange`. It writes to a byte slice and
has bytes for every value. -/
def Cbor.encodeExchange (e : contactExchange) : Except Error Bytes :=
  .ok (Cbor.encodeMap (Cbor.exchangePairs e))

/-- The reference decoder for a `*contactExchange` destination: the pairs of the
map are stored by key into the destination as it is. -/
def Cbor.decodeExchange (data : Bytes) (dst : contactExchange) : Except Error contactExchange :=
  match Cbor.decodeMap data with
  | some kvs =>
    match Cbor.setExchangeFields dst kvs with
    | some e => .ok e
    | none => .error errDecode
  | none => .error errDecode

/-- The reference encoder for a `serializedContact`. It writes to a byte slice
and has bytes for every value. -/
def Cbor.encodeContact (s : serializedContact) : Except Error Bytes :=
  .ok (Cbor.encodeMap (Cbor.contactPairs s))

/-- The reference decoder for a `*serializedContact` destination: the pairs of
the map are stored by key into the destination as it is. -/
def Cbor.decodeContact (data : Bytes) (dst : serializedContact) :
    Except Error serializedContact :=
  match Cbor.decodeMap data with
  | some kvs =>
    match Cbor.setContactFields dst kvs with
    | some s => .ok s
    | none => .error errDecode
  | none => .error errDecode

/-- The world `w` with the reference codec in the place of its codec; the
ratchet, the spool and the random source stay those of `w`. -/
def World.withCborCodec (w : World) : World :=
  { w with
    encodeExchange := Cbor.encodeExchange
    decodeExchange := Cbor.decodeExchange
    encodeContact := Cbor.encodeContact
    decodeContact := Cbor.decodeContact }

/-- A world to evaluate the functions in: the reference codec, and a ratchet, a
spool and a random source that are stand-ins, reduced to what `contact.go` can
see of them. The persisted form of this ratchet is not the one of the library. -/
def refWorld : World where
  randReader := { seed := 7 }
  ratchetNew := fun src => .ok (some { state := [src.seed % 256] })
  CreateKeyExchange := fun r =>
    match r with
    | some st => .ok (some { raw := 75 :: st.state }, some { state := st.state ++ [75] })
    | none => .error errNilRatchet
  ratchetMarshalBinary := fun r =>
    match r with
    | some st => .ok (1 :: st.state)
    | none => .error errNilRatchet
  ratchetUnmarshalBinary := fun r blob =>
    match r, blob with
    | some _, 1 :: state => .ok (some { state := state })
    | _, _ => .error errRatchetRestore
  GetSpoolWriter := fun rd => rd.map fun st => { raw := 87 :: st.raw }
  encodeExchange := Cbor.encodeExchange
  decodeExchange := Cbor.decodeExchange
  encodeContact := Cbor.encodeContact
  decodeContact := Cbor.decodeContact

/-- The reference world with a random source that is unavailable: `ratchet.New`
reports an error. -/
def noRandomWorld : World :=
  { refWorld with ratchetNew := fun _ => .error errNoRandom }

/-- What the Go types guarantee of a `serializedContact`: an id that is a
`uint64` and lengths that fit one. -/
def serializedContact.Sized (s : serializedContact) : Prop :=
  s.ID < 18446744073709551616 ∧ s.Nickname.length < 18446744073709551616 ∧
  s.KeyExchange.length < 18446744073709551616 ∧
  s.PandaKeyExchange.length < 18446744073709551616 ∧
  s.PandaResult.length < 18446744073709551616 ∧ s.Ratchet.length < 18446744073709551616 ∧
  ∀ p, s.SpoolWriterChan = some p → p.raw.length < 18446744073709551616

/-- What the Go types guarantee of a `contactExchange`: lengths that fit a `uint64`. -/
def contactExchange.Sized (e : contactExchange) : Prop :=
  (∀ p, e.SpoolWriter = some p → p.raw.length < 18446744073709551616) ∧
  (∀ p, e.SignedKeyExchange = some p → p.raw.length < 18446744073709551616)

/-! ## Inputs used to evaluate the functions -/

/-- A pending contact as `NewContact` builds it in `refWorld`: id 1, nickname
"al", channel 0. -/
def alice : Contact :=
  { id := 1
    nickname := [97, 108]
    isPending := true
    keyExchange :=
      [162, 107, 83, 112, 111, 111, 108, 87, 114, 105, 116, 101, 114, 66, 87, 9, 113, 83, 105,
        103, 110, 101, 100, 75, 101, 121, 69, 120, 99, 104, 97, 110, 103, 101, 66, 75, 7]
    pandaKeyExchange := []
    pandaShutdownChan := some 0
    pandaResult := []
    ratchet := some { state := [7, 75] }
    spoolWriterChan := none }

/-- A contact unlike `alice` in every field, used as a receiver. -/
def bob : Contact :=
  { id := 2
    nickname := [98]
    isPending := false
    keyExchange := [5]
    pandaKeyExchange := [6]
    pandaShutdownChan := some 3
    pandaResult := [101]
    ratchet := some { state := [9] }
    spoolWriterChan := some { raw := [4] } }

/-- The bytes `alice` marshals to in `refWorld`. -/
def aliceBytes : Bytes :=
  [168, 98, 73, 68, 1, 104, 78, 105, 99, 107, 110, 97, 109, 101, 98, 97, 108, 105, 73, 115, 80,
    101, 110, 100, 105, 110, 103, 245, 107, 75, 101, 121, 69, 120, 99, 104, 97, 110, 103, 101,
    88, 37, 162, 107, 83, 112, 111, 111, 108, 87, 114, 105, 116, 101, 114, 66, 87, 9, 113, 83,
    105, 103, 110, 101, 100, 75, 101, 121, 69, 120, 99, 104, 97, 110, 103, 101, 66, 75, 7, 112,
    80, 97, 110, 100, 97, 75, 101, 121, 69, 120, 99, 104, 97, 110, 103, 101, 64, 107, 80, 97,
    110, 100, 97, 82, 101, 115, 117, 108, 116, 96, 103, 82, 97, 116, 99, 104, 101, 116, 67, 1,
    7, 75, 111, 83, 112, 111, 111, 108, 87, 114, 105, 116, 101, 114, 67, 104, 97, 110, 246]

/-- A contact record holding the `Ratchet` field and no other: the CBOR map of
one pair, key "Ratchet", value the byte string `blob`. The blob is the ratchet's
own persisted form, which `contact.go` never looks into. -/
def ratchetOnlyBytes (blob : Bytes) : Bytes :=
  Cbor.encodeMap [(Cbor.keyRatchet, .bstr blob)]

/-- What a reader by key makes of `ratchetOnlyBytes blob` and a zero-valued
destination: the blob and seven zero values. -/
def ratchetOnlyRecord (blob : Bytes) : serializedContact :=
  { serializedContact.zero with Ratchet := blob }

/-- A contact record holding the first three fields and no other: the map of
the pairs "ID" 1, "Nickname" "al", "IsPending" true. -/
def threeFieldBytes : Bytes :=
  [163, 98, 73, 68, 1, 104, 78, 105, 99, 107, 110, 97, 109, 101, 98, 97, 108, 105, 73, 115, 80,
    101, 110, 100, 105, 110, 103, 245]

/-- The pairs of `threeFieldBytes`. -/
def threeFieldPairs : List (Bytes × Cbor.Item) :=
  [(Cbor.keyID, .uint 1), (Cbor.keyNickname, .tstr [97, 108]), (Cbor.keyIsPending, .bool true)]

/-- What a reader by key makes of `threeFieldBytes` and a zero-valued destination. -/
def threeFieldRecord : serializedContact :=
  { serializedContact.zero with ID := 1, Nickname := [97, 108], IsPending := true }

/-- The first three octets of `aliceBytes`: a record cut short. -/
def truncatedBytes : Bytes := [168, 98, 73]

/-- An envelope holding a nil signed key exchange and no spool writer: the map of
the one pair "SignedKeyExchange" nil. -/
def nilKeyExchangeBytes : Bytes :=
  [161, 113, 83, 105, 103, 110, 101, 100, 75, 101, 121, 69, 120, 99, 104, 97, 110, 103, 101, 246]

/-- The CBOR map of no pair at all. -/
def emptyMapBytes : Bytes := [160]

/-! ## The four paths of `UnmarshalBinary`, the three of `MarshalBinary` -/

/-- The receiver as a successful `UnmarshalBinary` leaves it: the eight
assignments of contact.go:170-177 applied to `c`. -/
def Contact.restored (c : Contact) (s : serializedContact) (r : Ptr ratchet.Ratchet) : Contact :=
  { c with
    id := s.ID
    nickname := s.Nickname
    isPending := s.IsPending
    keyExchange := s.KeyExchange
    pandaKeyExchange := s.PandaKeyExchange
    pandaResult := s.PandaResult
    ratchet := r
    spoolWriterChan := s.SpoolWriterChan }

/-- The struct literal of contact.go:132-141: what `MarshalBinary` hands to the
encoder for the contact `c` and the ratchet blob `ratchetBlob`. -/
def Contact.record (c : Contact) (ratchetBlob : Bytes) : serializedContact :=
  { ID := c.id
    Nickname := c.nickname
    IsPending := c.isPending
    KeyExchange := c.keyExchange
    PandaKeyExchange := c.pandaKeyExchange
    PandaResult := c.pandaResult
    Ratchet := ratchetBlob
    SpoolWriterChan := c.spoolWriterChan }

theorem UnmarshalBinary_of_new_error {w : World} {c : Contact} {data : Bytes} {e : Error}
    (hnew : w.ratchetNew w.randReader = .error e) :
    c.UnmarshalBinary w data = (some e, c) := by
  simp only [Contact.UnmarshalBinary, hnew]

theorem UnmarshalBinary_of_decode_error {w : World} {c : Contact} {data : Bytes} {e : Error}
    {r : Ptr ratchet.Ratchet}
    (hnew : w.ratchetNew w.randReader = .ok r)
    (hdec : w.decodeContact data serializedContact.zero = .error e) :
    c.UnmarshalBinary w data = (some e, c) := by
  simp only [Contact.UnmarshalBinary, hnew, hdec]

theorem UnmarshalBinary_of_restore_error {w : World} {c : Contact} {data : Bytes} {e : Error}
    {r : Ptr ratchet.Ratchet} {s : serializedContact}
    (hnew : w.ratchetNew w.randReader = .ok r)
    (hdec : w.decodeContact data serializedContact.zero = .ok s)
    (hres : w.ratchetUnmarshalBinary r s.Ratchet = .error e) :
    c.UnmarshalBinary w data = (some e, c) := by
  simp only [Contact.UnmarshalBinary, hnew, hdec, hres]

theorem UnmarshalBinary_of_ok {w : World} {c : Contact} {data : Bytes}
    {r r1 : Ptr ratchet.Ratchet} {s : serializedContact}
    (hnew : w.ratchetNew w.randReader = .ok r)
    (hdec : w.decodeContact data serializedContact.zero = .ok s)
    (hres : w.ratchetUnmarshalBinary r s.Ratchet = .ok r1) :
    c.UnmarshalBinary w data = (none, c.restored s r1) := by
  simp only [Contact.UnmarshalBinary, hnew, hdec, hres, Contact.restored]

theorem MarshalBinary_of_ratchet_error {w : World} {c : Contact} {e : Error}
    (hblob : w.ratchetMarshalBinary c.ratchet = .error e) :
    c.MarshalBinary w = (.error e, c) := by
  simp only [Contact.MarshalBinary, hblob]

theorem MarshalBinary_of_encode_error {w : World} {c : Contact} {e : Error} {blob : Bytes}
    (hblob : w.ratchetMarshalBinary c.ratchet = .ok blob)
    (henc : w.encodeContact (c.record blob) = .error e) :
    c.MarshalBinary w = (.error e, c) := by
  simp only [Contact.record] at henc
  simp only [Contact.MarshalBinary, hblob, henc]

theorem MarshalBinary_of_ok {w : World} {c : Contact} {blob b : Bytes}
    (hblob : w.ratchetMarshalBinary c.ratchet = .ok blob)
    (henc : w.encodeContact (c.record blob) = .ok b) :
    c.MarshalBinary w = (.ok b, c) := by
  simp only [Contact.record] at henc
  simp only [Contact.MarshalBinary, hblob, henc]

/-- Whatever the outcome, `UnmarshalBinary` is on one of its four paths. -/
theorem UnmarshalBinary_paths (w : World) (c : Contact) (data : Bytes) :
    (∃ e, w.ratchetNew w.randReader = .error e ∧ c.UnmarshalBinary w data = (some e, c)) ∨
    (∃ r e, w.ratchetNew w.randReader = .ok r ∧
      w.decodeContact data serializedContact.zero = .error e ∧
      c.UnmarshalBinary w data = (some e, c)) ∨
    (∃ r s e, w.ratchetNew w.randReader = .ok r ∧
      w.decodeContact data serializedContact.zero = .ok s ∧
      w.ratchetUnmarshalBinary r s.Ratchet = .error e ∧
      c.UnmarshalBinary w data = (some e, c)) ∨
    (∃ r s r1, w.ratchetNew w.randReader = .ok r ∧
      w.decodeContact data serializedContact.zero = .ok s ∧
      w.ratchetUnmarshalBinary r s.Ratchet = .ok r1 ∧
      c.UnmarshalBinary w data = (none, c.restored s r1)) := by
  cases hnew : w.ratchetNew w.randReader with
  | error e => exact Or.inl ⟨e, rfl, UnmarshalBinary_of_new_error hnew⟩
  | ok r =>
    cases hdec : w.decodeContact data serializedContact.zero with
    | error e => exact Or.inr (Or.inl ⟨r, e, rfl, rfl, UnmarshalBinary_of_decode_error hnew hdec⟩)
    | ok s =>
      cases hres : w.ratchetUnmarshalBinary r s.Ratchet with
      | error e =>
        exact Or.inr (Or.inr (Or.inl
          ⟨r, s, e, rfl, rfl, hres, UnmarshalBinary_of_restore_error hnew hdec hres⟩))
      | ok r1 =>
        exact Or.inr (Or.inr (Or.inr
          ⟨r, s, r1, rfl, rfl, hres, UnmarshalBinary_of_ok hnew hdec hres⟩))

/-- Whatever the outcome, `NewContact` is on one of its four paths. -/
theorem NewContact_paths (w : World) (heap : Heap) (nickname : GoString) (id : Nat)
    (spoolReaderChan : Ptr channels.UnreliableSpoolReaderChannel)
    (session : Ptr session.Session) :
    (∃ e, w.ratchetNew w.randReader = .error e ∧
      NewContact w heap nickname id spoolReaderChan session = (.error e, heap)) ∨
    (∃ r e, w.ratchetNew w.randReader = .ok r ∧ w.CreateKeyExchange r = .error e ∧
      NewContact w heap nickname id spoolReaderChan session = (.error e, heap)) ∨
    (∃ r k r1 e, w.ratchetNew w.randReader = .ok r ∧ w.CreateKeyExchange r = .ok (k, r1) ∧
      NewContactExchangeBytes w (w.GetSpoolWriter spoolReaderChan) k = .error e ∧
      NewContact w heap nickname id spoolReaderChan session = (.error e, heap)) ∨
    (∃ r k r1 exchange, w.ratchetNew w.randReader = .ok r ∧
      w.CreateKeyExchange r = .ok (k, r1) ∧
      NewContactExchangeBytes w (w.GetSpoolWriter spoolReaderChan) k = .ok exchange ∧
      NewContact w heap nickname id spoolReaderChan session =
        (.ok { id := id, nickname := nickname, isPending := true, keyExchange := exchange,
               pandaKeyExchange := [], pandaShutdownChan := some heap.nextChan,
               pandaResult := [], ratchet := r1, spoolWriterChan := none },
         { nextChan := heap.nextChan + 1 })) := by
  cases hnew : w.ratchetNew w.randReader with
  | error e => exact Or.inl ⟨e, rfl, by simp only [NewContact, hnew]⟩
  | ok r =>
    cases hkx : w.CreateKeyExchange r with
    | error e => exact Or.inr (Or.inl ⟨r, e, rfl, hkx, by simp only [NewContact, hnew, hkx]⟩)
    | ok kr =>
      obtain ⟨k, r1⟩ := kr
      cases hex : NewContactExchangeBytes w (w.GetSpoolWriter spoolReaderChan) k with
      | error e =>
        exact Or.inr (Or.inr (Or.inl
          ⟨r, k, r1, e, rfl, hkx, hex, by simp only [NewContact, hnew, hkx, hex]⟩))
      | ok exchange =>
        exact Or.inr (Or.inr (Or.inr
          ⟨r, k, r1, exchange, rfl, hkx, hex,
            by simp only [NewContact, hnew, hkx, hex, makeChan, Contact.zero]⟩))

/-! ## The reference codec inverts itself -/

namespace Cbor

theorem beNat2 (a b : Nat) : beNat [a, b] = a * 256 + b := by simp [beNat]
theorem beNat4 (a b c d : Nat) : beNat [a, b, c, d] = ((a * 256 + b) * 256 + c) * 256 + d := by
  simp [beNat]
theorem beNat8 (a b c d e f g h : Nat) :
    beNat [a, b, c, d, e, f, g, h] =
      ((((((a * 256 + b) * 256 + c) * 256 + d) * 256 + e) * 256 + f) * 256 + g) * 256 + h := by
  simp [beNat]

theorem decodeHead_encodeHead (m n : Nat) (rest : Bytes) (hm : m < 8)
    (hn : n < 18446744073709551616) :
    ∃ info, decodeHead (encodeHead m n ++ rest) =
      some { major := m, info := info, arg := n, rest := rest } := by
  unfold encodeHead
  split_ifs with h1 h2 h3 h4
  · refine ⟨n, ?_⟩
    have a1 : ¬ 256 ≤ m * 32 + n := by omega
    have a2 : (m * 32 + n) % 32 = n := by omega
    have a3 : (m * 32 + n) / 32 = m := by omega
    simp [decodeHead, a1, a2, a3, h1]
  · refine ⟨24, ?_⟩
    have a1 : ¬ 256 ≤ m * 32 + 24 := by omega
    have a2 : (m * 32 + 24) % 32 = 24 := by omega
    have a3 : (m * 32 + 24) / 32 = m := by omega
    simp [decodeHead, a1, a2, a3, argWidth, beNat]
  · refine ⟨25, ?_⟩
    have a1 : ¬ 256 ≤ m * 32 + 25 := by omega
    have a2 : (m * 32 + 25) % 32 = 25 := by omega
    have a3 : (m * 32 + 25) / 32 = m := by omega
    have a4 : n / 256 * 256 + n % 256 = n := by omega
    simp [decodeHead, a1, a2, a3, argWidth, beNat2, a4]
  · refine ⟨26, ?_⟩
    have a1 : ¬ 256 ≤ m * 32 + 26 := by omega
    have a2 : (m * 32 + 26) % 32 = 26 := by omega
    have a3 : (m * 32 + 26) / 32 = m := by omega
    have a4 : ((n / 16777216 % 256 * 256 + n / 65536 % 256) * 256 + n / 256 % 256) * 256
        + n % 256 = n := by omega
    simp [decodeHead, a1, a2, a3, argWidth, beNat4, a4]
  · refine ⟨27, ?_⟩
    have a1 : ¬ 256 ≤ m * 32 + 27 := by omega
    have a2 : (m * 32 + 27) % 32 = 27 := by omega
    have a3 : (m * 32 + 27) / 32 = m := by omega
    have a4 : ((((((n / 72057594037927936 % 256 * 256 + n / 281474976710656 % 256) * 256
        + n / 1099511627776 % 256) * 256 + n / 4294967296 % 256) * 256
        + n / 16777216 % 256) * 256 + n / 65536 % 256) * 256 + n / 256 % 256) * 256
        + n % 256 = n := by omega
    simp [decodeHead, a1, a2, a3, argWidth, beNat8, a4]

theorem decodeItem_encodeItem (it : Item) (rest : Bytes) (h : it.Sized) :
    decodeItem (encodeItem it ++ rest) = some (it, rest) := by
  cases it with
  | uint n =>
    obtain ⟨info, hh⟩ := decodeHead_encodeHead 0 n rest (by omega) h
    simp [decodeItem, encodeItem, hh]
  | bstr b =>
    obtain ⟨info, hh⟩ := decodeHead_encodeHead 2 b.length (b ++ rest) (by omega) h
    simp [decodeItem, encodeItem, hh, List.append_assoc]
  | tstr b =>
    obtain ⟨info, hh⟩ := decodeHead_encodeHead 3 b.length (b ++ rest) (by omega) h
    simp [decodeItem, encodeItem, hh, List.append_assoc]
  | bool b => cases b <;> simp [decodeItem, encodeItem, decodeHead]
  | null => simp [decodeItem, encodeItem, decodeHead]


theorem decodePairs_encode (kvs : List (Bytes × Item)) (rest : Bytes) (h : Sized kvs) :
    decodePairs kvs.length
      ((kvs.map fun kv => encodeItem (.tstr kv.1) ++ encodeItem kv.2).flatten ++ rest)
      = some kvs := by
  induction kvs with
  | nil => simp [decodePairs]
  | cons kv kvs ih =>
    have hkv := h kv (List.mem_cons_self _ _)
    have htl : Sized kvs := fun x hx => h x (List.mem_cons_of_mem _ hx)
    have hk : (Item.tstr kv.1).Sized := hkv.1
    simp only [List.map_cons, List.flatten_cons, List.length_cons, List.append_assoc, decodePairs]
    rw [decodeItem_encodeItem _ _ hk]
    simp only []
    rw [decodeItem_encodeItem _ _ hkv.2]
    simp only []
    rw [ih htl]

theorem decodeMap_encodeMap (kvs : List (Bytes × Item)) (h : Sized kvs)
    (hlen : kvs.length < 18446744073709551616) :
    decodeMap (encodeMap kvs) = some kvs := by
  obtain ⟨info, hh⟩ := decodeHead_encodeHead 5 kvs.length
    (kvs.map fun kv => encodeItem (.tstr kv.1) ++ encodeItem kv.2).flatten (by omega) hlen
  have := decodePairs_encode kvs [] h
  simp only [List.append_nil] at this
  simp [decodeMap, encodeMap, hh, this]

end Cbor

theorem Cbor.contactPairs_sized (s : serializedContact) (h : s.Sized) :
    Cbor.Sized (Cbor.contactPairs s) := by
  obtain ⟨h1, h2, h3, h4, h5, h6, h7⟩ := h
  intro kv hkv
  simp only [Cbor.contactPairs, List.mem_cons, List.mem_singleton, List.not_mem_nil,
    or_false] at hkv
  rcases hkv with rfl | rfl | rfl | rfl | rfl | rfl | rfl | rfl
  · exact ⟨by simp [Cbor.keyID], h1⟩
  · exact ⟨by simp [Cbor.keyNickname], h2⟩
  · exact ⟨by simp [Cbor.keyIsPending], trivial⟩
  · exact ⟨by simp [Cbor.keyKeyExchange], h3⟩
  · exact ⟨by simp [Cbor.keyPandaKeyExchange], h4⟩
  · exact ⟨by simp [Cbor.keyPandaResult], h5⟩
  · exact ⟨by simp [Cbor.keyRatchet], h6⟩
  · refine ⟨by simp [Cbor.keySpoolWriterChan], ?_⟩
    cases hp : s.SpoolWriterChan with
    | none => trivial
    | some p => exact h7 p hp

theorem Cbor.setContactFields_contactPairs (dst s : serializedContact) :
    Cbor.setContactFields dst (Cbor.contactPairs s) = some s := by
  obtain ⟨i, n, p, k, pk, pr, r, sw⟩ := s
  cases sw <;>
    simp [Cbor.setContactFields, Cbor.setContactField, Cbor.contactPairs, Cbor.Item.octets,
      Cbor.Item.pointee, Cbor.Item.number, Cbor.Item.truth, Cbor.keyID, Cbor.keyNickname,
      Cbor.keyIsPending, Cbor.keyKeyExchange,
      Cbor.keyPandaKeyExchange, Cbor.keyPandaResult, Cbor.keyRatchet, Cbor.keySpoolWriterChan]

/-- In `refWorld` the decoder inverts the encoder on every `serializedContact`
a Go program can hold, whatever the destination held. -/
theorem refWorld_decodeContact_encodeContact (dst s : serializedContact) (h : s.Sized) :
    ∃ b, refWorld.encodeContact s = .ok b ∧ refWorld.decodeContact b dst = .ok s := by
  refine ⟨Cbor.encodeMap (Cbor.contactPairs s), rfl, ?_⟩
  have h1 := Cbor.decodeMap_encodeMap (Cbor.contactPairs s) (Cbor.contactPairs_sized s h)
    (by simp [Cbor.contactPairs])
  simp only [refWorld, Cbor.decodeContact, h1, Cbor.setContactFields_contactPairs]

theorem Cbor.exchangePairs_sized (e : contactExchange) (h : e.Sized) :
    Cbor.Sized (Cbor.exchangePairs e) := by
  obtain ⟨h1, h2⟩ := h
  intro kv hkv
  simp only [Cbor.exchangePairs, List.mem_cons, List.mem_singleton, List.not_mem_nil,
    or_false] at hkv
  rcases hkv with rfl | rfl
  · refine ⟨by simp [Cbor.keySpoolWriter], ?_⟩
    cases hp : e.SpoolWriter with
    | none => trivial
    | some p => exact h1 p hp
  · refine ⟨by simp [Cbor.keySignedKeyExchange], ?_⟩
    cases hp : e.SignedKeyExchange with
    | none => trivial
    | some p => exact h2 p hp

theorem Cbor.setExchangeFields_exchangePairs (dst e : contactExchange) :
    Cbor.setExchangeFields dst (Cbor.exchangePairs e) = some e := by
  obtain ⟨sw, kx⟩ := e
  cases sw <;> cases kx <;>
    simp [Cbor.setExchangeFields, Cbor.setExchangeField, Cbor.exchangePairs, Cbor.Item.pointee,
      Cbor.keySpoolWriter, Cbor.keySignedKeyExchange]

/-- In `refWorld` the decoder inverts the encoder on every `contactExchange` a Go
program can hold, whatever the destination held. -/
theorem refWorld_decodeExchange_encodeExchange (dst e : contactExchange) (h : e.Sized) :
    ∃ b, refWorld.encodeExchange e = .ok b ∧ refWorld.decodeExchange b dst = .ok e := by
  refine ⟨Cbor.encodeMap (Cbor.exchangePairs e), rfl, ?_⟩
  have h1 := Cbor.decodeMap_encodeMap (Cbor.exchangePairs e) (Cbor.exchangePairs_sized e h)
    (by simp [Cbor.exchangePairs])
  simp only [refWorld, Cbor.decodeExchange, h1, Cbor.setExchangeFields_exchangePairs]

/-- In `refWorld` the ratchet restores, into any receiver that is not nil, the
state of every ratchet from the blob that ratchet marshals to. -/
theorem refWorld_ratchet_restores (receiver st : ratchet.Ratchet) (blob : Bytes)
    (h : refWorld.ratchetMarshalBinary (some st) = .ok blob) :
    refWorld.ratchetUnmarshalBinary (some receiver) blob = .ok (some st) := by
  simp only [refWorld, Except.ok.injEq] at h
  subst h
  rfl

/-! ## The reference reader leaves a field without a key as it was -/

namespace Cbor

theorem setContactField_other (s s1 : serializedContact) (k : Bytes) (v : Item)
    (h : setContactField s k v = some s1) :
    (k ≠ keyID → s1.ID = s.ID) ∧ (k ≠ keyNickname → s1.Nickname = s.Nickname) ∧
    (k ≠ keyIsPending → s1.IsPending = s.IsPending) ∧
    (k ≠ keyKeyExchange → s1.KeyExchange = s.KeyExchange) ∧
    (k ≠ keyPandaKeyExchange → s1.PandaKeyExchange = s.PandaKeyExchange) ∧
    (k ≠ keyPandaResult → s1.PandaResult = s.PandaResult) ∧
    (k ≠ keyRatchet → s1.Ratchet = s.Ratchet) ∧
    (k ≠ keySpoolWriterChan → s1.SpoolWriterChan = s.SpoolWriterChan) := by
  unfold setContactField at h
  split_ifs at h with h1 h2 h3 h4 h5 h6 h7 h8
  all_goals first
    | (obtain ⟨a, _, rfl⟩ := Option.map_eq_some'.mp h
       refine ⟨?_, ?_, ?_, ?_, ?_, ?_, ?_, ?_⟩ <;> intro hk <;>
         first | rfl | exact absurd ‹k = _› hk)
    | (cases h
       exact ⟨fun _ => rfl, fun _ => rfl, fun _ => rfl, fun _ => rfl, fun _ => rfl,
         fun _ => rfl, fun _ => rfl, fun _ => rfl⟩)

theorem setContactFields_absent (kvs : List (Bytes × Item)) :
    ∀ s s1 : serializedContact, setContactFields s kvs = some s1 →
    (keyID ∉ kvs.map Prod.fst → s1.ID = s.ID) ∧
    (keyNickname ∉ kvs.map Prod.fst → s1.Nickname = s.Nickname) ∧
    (keyIsPending ∉ kvs.map Prod.fst → s1.IsPending = s.IsPending) ∧
    (keyKeyExchange ∉ kvs.map Prod.fst → s1.KeyExchange = s.KeyExchange) ∧
    (keyPandaKeyExchange ∉ kvs.map Prod.fst → s1.PandaKeyExchange = s.PandaKeyExchange) ∧
    (keyPandaResult ∉ kvs.map Prod.fst → s1.PandaResult = s.PandaResult) ∧
    (keyRatchet ∉ kvs.map Prod.fst → s1.Ratchet = s.Ratchet) ∧
    (keySpoolWriterChan ∉ kvs.map Prod.fst → s1.SpoolWriterChan = s.SpoolWriterChan) := by
  induction kvs with
  | nil =>
    intro s s1 h
    simp only [setContactFields, Option.some.injEq] at h
    subst h
    exact ⟨fun _ => rfl, fun _ => rfl, fun _ => rfl, fun _ => rfl, fun _ => rfl,
      fun _ => rfl, fun _ => rfl, fun _ => rfl⟩
  | cons kv kvs ih =>
    intro s s1 h
    obtain ⟨k, v⟩ := kv
    simp only [setContactFields] at h
    cases hstep : setContactField s k v with
    | none => rw [hstep] at h; simp at h
    | some s2 =>
      rw [hstep] at h
      obtain ⟨a1, a2, a3, a4, a5, a6, a7, a8⟩ := setContactField_other s s2 k v hstep
      obtain ⟨b1, b2, b3, b4, b5, b6, b7, b8⟩ := ih s2 s1 h
      simp only [List.map_cons, List.mem_cons, not_or]
      exact ⟨fun hk => (b1 hk.2).trans (a1 (Ne.symm hk.1)),
        fun hk => (b2 hk.2).trans (a2 (Ne.symm hk.1)),
        fun hk => (b3 hk.2).trans (a3 (Ne.symm hk.1)),
        fun hk => (b4 hk.2).trans (a4 (Ne.symm hk.1)),
        fun hk => (b5 hk.2).trans (a5 (Ne.symm hk.1)),
        fun hk => (b6 hk.2).trans (a6 (Ne.symm hk.1)),
        fun hk => (b7 hk.2).trans (a7 (Ne.symm hk.1)),
        fun hk => (b8 hk.2).trans (a8 (Ne.symm hk.1))⟩

theorem setExchangeField_other (e e1 : contactExchange) (k : Bytes) (v : Item)
    (h : setExchangeField e k v = some e1) :
    (k ≠ keySpoolWriter → e1.SpoolWriter = e.SpoolWriter) ∧
    (k ≠ keySignedKeyExchange → e1.SignedKeyExchange = e.SignedKeyExchange) := by
  unfold setExchangeField at h
  split_ifs at h with h1 h2
  all_goals first
    | (obtain ⟨a, _, rfl⟩ := Option.map_eq_some'.mp h
       refine ⟨?_, ?_⟩ <;> intro hk <;> first | rfl | exact absurd ‹k = _› hk)
    | (cases h
       exact ⟨fun _ => rfl, fun _ => rfl⟩)

theorem setExchangeFields_absent (kvs : List (Bytes × Item)) :
    ∀ e e1 : contactExchange, setExchangeFields e kvs = some e1 →
    (keySpoolWriter ∉ kvs.map Prod.fst → e1.SpoolWriter = e.SpoolWriter) ∧
    (keySignedKeyExchange ∉ kvs.map Prod.fst → e1.SignedKeyExchange = e.SignedKeyExchange) := by
  induction kvs with
  | nil =>
    intro e e1 h
    simp only [setExchangeFields, Option.some.injEq] at h
    subst h
    exact ⟨fun _ => rfl, fun _ => rfl⟩
  | cons kv kvs ih =>
    intro e e1 h
    obtain ⟨k, v⟩ := kv
    simp only [setExchangeFields] at h
    cases hstep : setExchangeField e k v with
    | none => rw [hstep] at h; simp at h
    | some e2 =>
      rw [hstep] at h
      obtain ⟨a1, a2⟩ := setExchangeField_other e e2 k v hstep
      obtain ⟨b1, b2⟩ := ih e2 e1 h
      simp only [List.map_cons, List.mem_cons, not_or]
      exact ⟨fun hk => (b1 hk.2).trans (a1 (Ne.symm hk.1)),
        fun hk => (b2 hk.2).trans (a2 (Ne.symm hk.1))⟩

end Cbor

theorem ratchetOnlyBytes_decodeMap (blob : Bytes) (hlen : blob.length < 18446744073709551616) :
    Cbor.decodeMap (ratchetOnlyBytes blob) = some [(Cbor.keyRatchet, .bstr blob)] := by
  refine Cbor.decodeMap_encodeMap _ ?_ (by simp)
  intro kv hkv
  simp only [List.mem_singleton] at hkv
  subst hkv
  exact ⟨by simp [Cbor.keyRatchet], hlen⟩

theorem ratchetOnlyBytes_decodeContact (blob : Bytes)
    (hlen : blob.length < 18446744073709551616) :
    Cbor.decodeContact (ratchetOnlyBytes blob) serializedContact.zero
      = .ok (ratchetOnlyRecord blob) := by
  simp [Cbor.decodeContact, ratchetOnlyBytes_decodeMap blob hlen, Cbor.setContactFields,
    Cbor.setContactField, Cbor.Item.octets, ratchetOnlyRecord, Cbor.keyID, Cbor.keyNickname,
    Cbor.keyIsPending, Cbor.keyKeyExchange, Cbor.keyPandaKeyExchange, Cbor.keyPandaResult,
    Cbor.keyRatchet]

/-! ## C1: the contact round trip -/

/-- C1, as stated, fails where `ratchet.New` fails. In `noRandomWorld` the decoder
inverts the encoder on every `serializedContact`, the ratchet restores every
marshalled state into any receiver, the ratchet of `alice` marshals, and
`MarshalBinary` returns `aliceBytes`; `UnmarshalBinary` of those bytes still
returns the error of `ratchet.New` (contact.go:154-157) and leaves the receiver
as it was. -/
theorem contact_round_trip_fails_without_random :
    (∀ s : serializedContact, s.Sized →
      ∃ b, noRandomWorld.encodeContact s = .ok b ∧
        noRandomWorld.decodeContact b serializedContact.zero = .ok s) ∧
    (∀ (receiver st : ratchet.Ratchet) (blob : Bytes),
      noRandomWorld.ratchetMarshalBinary (some st) = .ok blob →
      noRandomWorld.ratchetUnmarshalBinary (some receiver) blob = .ok (some st)) ∧
    noRandomWorld.ratchetMarshalBinary alice.ratchet = .ok [1, 7, 75] ∧
    (alice.MarshalBinary noRandomWorld).1 = .ok aliceBytes ∧
    Contact.zero.UnmarshalBinary noRandomWorld aliceBytes = (some errNoRandom, Contact.zero) := by
  refine ⟨fun s hs => refWorld_decodeContact_encodeContact serializedContact.zero s hs,
    fun receiver st blob h => refWorld_ratchet_restores receiver st blob h,
    by decide, by decide, by decide⟩

/-- C1 (amended): for every contact `c` whose ratchet marshals to `blob`, if the
decoder inverts the encoder on the record of `c`, `ratchet.New` succeeds with a
fresh ratchet `r`, and restoring `blob` into `r` gives the state of the ratchet
of `c`, then `MarshalBinary` succeeds with some bytes `b`, and `UnmarshalBinary`
of `b` on any receiver returns no error and leaves the receiver with the id,
nickname, isPending, keyExchange, pandaKeyExchange, pandaResult and
spoolWriterChan of `c` and with a ratchet in the state of the ratchet of `c`. -/
theorem contact_round_trip (w : World) (c receiver : Contact) (blob : Bytes)
    (r : Ptr ratchet.Ratchet)
    (hblob : w.ratchetMarshalBinary c.ratchet = .ok blob)
    (hcodec : ∃ b, w.encodeContact (c.record blob) = .ok b ∧
      w.decodeContact b serializedContact.zero = .ok (c.record blob))
    (hnew : w.ratchetNew w.randReader = .ok r)
    (hratchet : w.ratchetUnmarshalBinary r blob = .ok c.ratchet) :
    ∃ b, (c.MarshalBinary w).1 = .ok b ∧
      (receiver.UnmarshalBinary w b).1 = none ∧
      (receiver.UnmarshalBinary w b).2.id = c.id ∧
      (receiver.UnmarshalBinary w b).2.nickname = c.nickname ∧
      (receiver.UnmarshalBinary w b).2.isPending = c.isPending ∧
      (receiver.UnmarshalBinary w b).2.keyExchange = c.keyExchange ∧
      (receiver.UnmarshalBinary w b).2.pandaKeyExchange = c.pandaKeyExchange ∧
      (receiver.UnmarshalBinary w b).2.pandaResult = c.pandaResult ∧
      (receiver.UnmarshalBinary w b).2.spoolWriterChan = c.spoolWriterChan ∧
      (receiver.UnmarshalBinary w b).2.ratchet = c.ratchet := by
  obtain ⟨b, henc, hdec⟩ := hcodec
  have hres : w.ratchetUnmarshalBinary r (c.record blob).Ratchet = .ok c.ratchet := hratchet
  refine ⟨b, ?_, ?_⟩
  · rw [MarshalBinary_of_ok hblob henc]
  · rw [UnmarshalBinary_of_ok hnew hdec hres]
    exact ⟨rfl, rfl, rfl, rfl, rfl, rfl, rfl, rfl, rfl⟩

/-- C1 (amended), at `alice` in `refWorld`, restored into `bob`. -/
theorem contact_round_trip_witness :
    ∃ b, (alice.MarshalBinary refWorld).1 = .ok b ∧
      (bob.UnmarshalBinary refWorld b).1 = none ∧
      (bob.UnmarshalBinary refWorld b).2.id = alice.id ∧
      (bob.UnmarshalBinary refWorld b).2.nickname = alice.nickname ∧
      (bob.UnmarshalBinary refWorld b).2.isPending = alice.isPending ∧
      (bob.UnmarshalBinary refWorld b).2.keyExchange = alice.keyExchange ∧
      (bob.UnmarshalBinary refWorld b).2.pandaKeyExchange = alice.pandaKeyExchange ∧
      (bob.UnmarshalBinary refWorld b).2.pandaResult = alice.pandaResult ∧
      (bob.UnmarshalBinary refWorld b).2.spoolWriterChan = alice.spoolWriterChan ∧
      (bob.UnmarshalBinary refWorld b).2.ratchet = alice.ratchet :=
  contact_round_trip refWorld alice bob [1, 7, 75] (some { state := [7] })
    (by decide) ⟨aliceBytes, by decide, by decide⟩ (by decide) (by decide)

/-! ## C2: the envelope round trip -/

/-- C2: for every pair of a spool writer and a signed key exchange on which the
decoder inverts the encoder, `NewContactExchangeBytes` succeeds with some bytes
`b`, and `parseContactExchangeBytes` of `b` succeeds with a `contactExchange`
whose `SpoolWriter` and `SignedKeyExchange` are the pair. -/
theorem envelope_round_trip (w : World)
    (spoolWriter : Ptr channels.UnreliableSpoolWriterChannel)
    (signedKeyExchange : Ptr ratchet.SignedKeyExchange)
    (hcodec : ∃ b,
      w.encodeExchange { SpoolWriter := spoolWriter, SignedKeyExchange := signedKeyExchange }
        = .ok b ∧
      w.decodeExchange b contactExchange.zero
        = .ok { SpoolWriter := spoolWriter, SignedKeyExchange := signedKeyExchange }) :
    ∃ b, NewContactExchangeBytes w spoolWriter signedKeyExchange = .ok b ∧
      ∃ e, parseContactExchangeBytes w b = .ok e ∧
        e.SpoolWriter = spoolWriter ∧ e.SignedKeyExchange = signedKeyExchange := by
  obtain ⟨b, henc, hdec⟩ := hcodec
  refine ⟨b, ?_, { SpoolWriter := spoolWriter, SignedKeyExchange := signedKeyExchange }, ?_,
    rfl, rfl⟩
  · simp only [NewContactExchangeBytes, henc]
  · simp only [parseContactExchangeBytes, hdec]

/-- C2, at the spool writer `01 02` and the signed key exchange `03` in `refWorld`. -/
theorem envelope_round_trip_witness :
    ∃ b, NewContactExchangeBytes refWorld (some { raw := [1, 2] }) (some { raw := [3] }) = .ok b ∧
      ∃ e, parseContactExchangeBytes refWorld b = .ok e ∧
        e.SpoolWriter = some { raw := [1, 2] } ∧ e.SignedKeyExchange = some { raw := [3] } :=
  envelope_round_trip refWorld (some { raw := [1, 2] }) (some { raw := [3] })
    ⟨[162, 107, 83, 112, 111, 111, 108, 87, 114, 105, 116, 101, 114, 66, 1, 2, 113, 83, 105, 103,
        110, 101, 100, 75, 101, 121, 69, 120, 99, 104, 97, 110, 103, 101, 65, 3],
      by decide, by decide⟩

/-! ## C3: a failed restore leaves the receiver alone -/

/-- C3: for every receiver and every input, if `UnmarshalBinary` returns an error
then the receiver, in every one of its nine fields, is what it was before the call. -/
theorem UnmarshalBinary_atomic_on_failure (w : World) (c : Contact) (data : Bytes)
    (herr : (c.UnmarshalBinary w data).1 ≠ none) :
    (c.UnmarshalBinary w data).2 = c := by
  rcases UnmarshalBinary_paths w c data with
    ⟨e, _, h⟩ | ⟨r, e, _, _, h⟩ | ⟨r, s, e, _, _, _, h⟩ | ⟨r, s, r1, _, _, _, h⟩
  · rw [h]
  · rw [h]
  · rw [h]
  · rw [h] at herr
    exact absurd rfl herr

/-- C3, at the receiver `bob` and a record cut short after three octets. -/
theorem UnmarshalBinary_atomic_on_failure_witness :
    (bob.UnmarshalBinary refWorld truncatedBytes).1 = some errDecode ∧
    (bob.UnmarshalBinary refWorld truncatedBytes).2 = bob :=
  ⟨by decide, UnmarshalBinary_atomic_on_failure refWorld bob truncatedBytes (by decide)⟩

/-! ## C4: what `NewContact` returns -/

/-- C4: whenever `NewContact` succeeds, the contact it returns is pending, has
the given id (also through `ID`) and nickname, has an empty pandaKeyExchange and
pandaResult and a nil spoolWriterChan, and holds a channel the allocator never
handed out before; its ratchet is the one `ratchet.New` made, in the state
`CreateKeyExchange` left it in, and its keyExchange is what
`NewContactExchangeBytes` returns for `spoolReaderChan.GetSpoolWriter()` and the
signed key exchange of that `CreateKeyExchange`. -/
theorem NewContact_postcondition (w : World) (heap heap1 : Heap) (nickname : GoString)
    (id : Nat) (spoolReaderChan : Ptr channels.UnreliableSpoolReaderChannel)
    (session : Ptr session.Session) (c : Contact)
    (hok : NewContact w heap nickname id spoolReaderChan session = (.ok c, heap1)) :
    c.isPending = true ∧ c.id = id ∧ c.ID = id ∧ c.nickname = nickname ∧
    c.pandaKeyExchange = [] ∧ c.pandaResult = [] ∧ c.spoolWriterChan = none ∧
    c.pandaShutdownChan = some heap.nextChan ∧ heap1.nextChan = heap.nextChan + 1 ∧
    ∃ r k r1, w.ratchetNew w.randReader = .ok r ∧ w.CreateKeyExchange r = .ok (k, r1) ∧
      c.ratchet = r1 ∧
      NewContactExchangeBytes w (w.GetSpoolWriter spoolReaderChan) k = .ok c.keyExchange := by
  rcases NewContact_paths w heap nickname id spoolReaderChan session with
    ⟨e, _, h⟩ | ⟨r, e, _, _, h⟩ | ⟨r, k, r1, e, _, _, _, h⟩ | ⟨r, k, r1, exchange, h1, h2, h3, h⟩
  · rw [h] at hok; simp at hok
  · rw [h] at hok; simp at hok
  · rw [h] at hok; simp at hok
  · rw [h] at hok
    simp only [Prod.mk.injEq, Except.ok.injEq] at hok
    obtain ⟨hc, hh⟩ := hok
    subst hc hh
    exact ⟨rfl, rfl, rfl, rfl, rfl, rfl, rfl, rfl, rfl, r, k, r1, h1, h2, rfl, h3⟩

/-- C4, at the call that builds `alice` in `refWorld` from an empty allocator. -/
theorem NewContact_postcondition_witness :
    alice.isPending = true ∧ alice.id = 1 ∧ alice.ID = 1 ∧ alice.nickname = [97, 108] ∧
    alice.pandaKeyExchange = [] ∧ alice.pandaResult = [] ∧ alice.spoolWriterChan = none ∧
    alice.pandaShutdownChan = some 0 ∧ (1 : Nat) = 0 + 1 ∧
    ∃ r k r1, refWorld.ratchetNew refWorld.randReader = .ok r ∧
      refWorld.CreateKeyExchange r = .ok (k, r1) ∧ alice.ratchet = r1 ∧
      NewContactExchangeBytes refWorld (refWorld.GetSpoolWriter (some { raw := [9] })) k
        = .ok alice.keyExchange :=
  NewContact_postcondition refWorld { nextChan := 0 } { nextChan := 1 } [97, 108] 1
    (some { raw := [9] }) none alice (by decide)

/-! ## C5: records with fields missing -/

/-- C5, as stated, fails at `ratchetOnlyBytes blob`, for every blob the ratchet
restores: a well-formed map that holds the key "Ratchet" and none of the other
seven. Whatever the ratchet and the random source are, with the reference codec
`UnmarshalBinary` returns no error on it and leaves a zero-valued receiver with
the restored ratchet and every other field at its zero value. So the claim does
not hold of every world and every such record. -/
theorem UnmarshalBinary_accepts_record_with_missing_fields :
    (∀ blob : Bytes, blob.length < 18446744073709551616 →
      Cbor.mapKeys (ratchetOnlyBytes blob) = some [Cbor.keyRatchet]) ∧
    (∀ (w : World) (blob : Bytes) (r r1 : Ptr ratchet.Ratchet),
      blob.length < 18446744073709551616 →
      w.ratchetNew w.randReader = .ok r →
      w.ratchetUnmarshalBinary r blob = .ok r1 →
      Contact.zero.UnmarshalBinary w.withCborCodec (ratchetOnlyBytes blob) =
        (none, { Contact.zero with ratchet := r1 })) ∧
    ¬ (∀ (w : World) (data : Bytes) (keys : List Bytes),
      Cbor.mapKeys data = some keys → Cbor.keyNickname ∉ keys →
      (Contact.zero.UnmarshalBinary w.withCborCodec data).1 ≠ none) := by
  have accepted : ∀ (w : World) (blob : Bytes) (r r1 : Ptr ratchet.Ratchet),
      blob.length < 18446744073709551616 →
      w.ratchetNew w.randReader = .ok r →
      w.ratchetUnmarshalBinary r blob = .ok r1 →
      Contact.zero.UnmarshalBinary w.withCborCodec (ratchetOnlyBytes blob) =
        (none, { Contact.zero with ratchet := r1 }) := by
    intro w blob r r1 hlen hnew hres
    have hnew1 : w.withCborCodec.ratchetNew w.withCborCodec.randReader = .ok r := hnew
    have hdec : w.withCborCodec.decodeContact (ratchetOnlyBytes blob) serializedContact.zero
        = .ok (ratchetOnlyRecord blob) := ratchetOnlyBytes_decodeContact blob hlen
    have hres1 : w.withCborCodec.ratchetUnmarshalBinary r (ratchetOnlyRecord blob).Ratchet
        = .ok r1 := hres
    rw [UnmarshalBinary_of_ok hnew1 hdec hres1]
    rfl
  have keys : ∀ blob : Bytes, blob.length < 18446744073709551616 →
      Cbor.mapKeys (ratchetOnlyBytes blob) = some [Cbor.keyRatchet] := by
    intro blob hlen
    simp only [Cbor.mapKeys, ratchetOnlyBytes_decodeMap blob hlen, Option.map_some',
      List.map_cons, List.map_nil]
  refine ⟨keys, accepted, fun hclaim => ?_⟩
  have hacc := accepted refWorld [1, 7, 75] (some { state := [7] }) (some { state := [7, 75] })
    (by decide) (by decide) (by decide)
  refine hclaim refWorld (ratchetOnlyBytes [1, 7, 75]) [Cbor.keyRatchet]
    (keys [1, 7, 75] (by decide)) (by decide) ?_
  rw [hacc]

/-- C5 (amended): `UnmarshalBinary` makes no check that a field is present, and
the reader by key of the codec makes none either. For every input that is a
well-formed map whose pairs can be stored, whatever keys it holds,
`UnmarshalBinary` returns no error exactly when `ratchet.New` succeeds and the
`Ratchet` blob read from the map restores; the receiver then holds the record
read from the map; and in that record every field whose key is absent from the
map has its zero value. -/
theorem UnmarshalBinary_checks_no_field_presence (w : World) (c : Contact) (data : Bytes)
    (kvs : List (Bytes × Cbor.Item)) (s : serializedContact)
    (hmap : Cbor.decodeMap data = some kvs)
    (hset : Cbor.setContactFields serializedContact.zero kvs = some s) :
    ((c.UnmarshalBinary w.withCborCodec data).1 = none ↔
      ∃ r r1, w.ratchetNew w.randReader = .ok r ∧
        w.ratchetUnmarshalBinary r s.Ratchet = .ok r1) ∧
    (∀ r r1, w.ratchetNew w.randReader = .ok r →
      w.ratchetUnmarshalBinary r s.Ratchet = .ok r1 →
      c.UnmarshalBinary w.withCborCodec data = (none, c.restored s r1)) ∧
    (Cbor.keyID ∉ kvs.map Prod.fst → s.ID = 0) ∧
    (Cbor.keyNickname ∉ kvs.map Prod.fst → s.Nickname = []) ∧
    (Cbor.keyIsPending ∉ kvs.map Prod.fst → s.IsPending = false) ∧
    (Cbor.keyKeyExchange ∉ kvs.map Prod.fst → s.KeyExchange = []) ∧
    (Cbor.keyPandaKeyExchange ∉ kvs.map Prod.fst → s.PandaKeyExchange = []) ∧
    (Cbor.keyPandaResult ∉ kvs.map Prod.fst → s.PandaResult = []) ∧
    (Cbor.keyRatchet ∉ kvs.map Prod.fst → s.Ratchet = []) ∧
    (Cbor.keySpoolWriterChan ∉ kvs.map Prod.fst → s.SpoolWriterChan = none) := by
  have hdec : w.withCborCodec.decodeContact data serializedContact.zero = .ok s := by
    show Cbor.decodeContact data serializedContact.zero = .ok s
    simp only [Cbor.decodeContact, hmap, hset]
  refine ⟨⟨fun hnone => ?_, fun ⟨r, r1, hnew, hres⟩ => ?_⟩, fun r r1 hnew hres => ?_,
    Cbor.setContactFields_absent kvs serializedContact.zero s hset⟩
  · rcases UnmarshalBinary_paths w.withCborCodec c data with
      ⟨e, _, h⟩ | ⟨r, e, _, hd, h⟩ | ⟨r, s1, e, _, _, _, h⟩ | ⟨r, s1, r1, hnew, hd, hres, h⟩
    · rw [h] at hnone; simp at hnone
    · rw [h] at hnone; simp at hnone
    · rw [h] at hnone; simp at hnone
    · rw [hdec] at hd
      cases hd
      exact ⟨r, r1, hnew, hres⟩
  · have hnew1 : w.withCborCodec.ratchetNew w.withCborCodec.randReader = .ok r := hnew
    have hres1 : w.withCborCodec.ratchetUnmarshalBinary r s.Ratchet = .ok r1 := hres
    rw [UnmarshalBinary_of_ok hnew1 hdec hres1]
  · have hnew1 : w.withCborCodec.ratchetNew w.withCborCodec.randReader = .ok r := hnew
    have hres1 : w.withCborCodec.ratchetUnmarshalBinary r s.Ratchet = .ok r1 := hres
    exact UnmarshalBinary_of_ok hnew1 hdec hres1

/-- C5 (amended), at `threeFieldBytes`: id, nickname and isPending are read from
the map, and the five fields without a key are zero. -/
theorem UnmarshalBinary_checks_no_field_presence_witness :
    Cbor.decodeMap threeFieldBytes = some threeFieldPairs ∧
    Cbor.setContactFields serializedContact.zero threeFieldPairs = some threeFieldRecord ∧
    threeFieldRecord.KeyExchange = [] ∧ threeFieldRecord.PandaKeyExchange = [] ∧
    threeFieldRecord.PandaResult = [] ∧ threeFieldRecord.Ratchet = [] ∧
    threeFieldRecord.SpoolWriterChan = none :=
  have h := UnmarshalBinary_checks_no_field_presence refWorld bob threeFieldBytes
    threeFieldPairs threeFieldRecord (by decide) (by decide)
  ⟨by decide, by decide, h.2.2.2.2.2.1 (by decide), h.2.2.2.2.2.2.1 (by decide),
    h.2.2.2.2.2.2.2.1 (by decide), h.2.2.2.2.2.2.2.2.1 (by decide),
    h.2.2.2.2.2.2.2.2.2 (by decide)⟩

/-! ## C6: envelopes with fields missing -/

/-- C6, as stated, fails at `emptyMapBytes`: the map of no pair is well formed,
`parseContactExchangeBytes` succeeds on it, and both fields of the envelope it
returns are nil. -/
theorem parseContactExchangeBytes_accepts_empty_map :
    Cbor.mapKeys emptyMapBytes = some [] ∧
    parseContactExchangeBytes refWorld emptyMapBytes =
      .ok { SpoolWriter := none, SignedKeyExchange := none } := by
  refine ⟨by decide, by decide⟩

/-- C6 (amended): `parseContactExchangeBytes` makes no check that a field is
present, and the reader by key of the codec makes none either. In every world it
returns what the decoder returns for the input and a zero-valued destination.
With the reference codec it succeeds on every input that is a well-formed map
whose pairs can be stored, whatever keys the map holds, and in the envelope it
returns a field whose key is absent from the map is nil. -/
theorem parseContactExchangeBytes_checks_no_field_presence (w : World)
    (contactExchangeBytes : Bytes) :
    parseContactExchangeBytes w contactExchangeBytes =
      w.decodeExchange contactExchangeBytes contactExchange.zero ∧
    (∀ (kvs : List (Bytes × Cbor.Item)) (e : contactExchange),
      Cbor.decodeMap contactExchangeBytes = some kvs →
      Cbor.setExchangeFields contactExchange.zero kvs = some e →
      parseContactExchangeBytes w.withCborCodec contactExchangeBytes = .ok e ∧
      (Cbor.keySpoolWriter ∉ kvs.map Prod.fst → e.SpoolWriter = none) ∧
      (Cbor.keySignedKeyExchange ∉ kvs.map Prod.fst → e.SignedKeyExchange = none)) := by
  refine ⟨?_, fun kvs e hmap hset => ⟨?_, ?_⟩⟩
  · cases hdec : w.decodeExchange contactExchangeBytes contactExchange.zero <;>
      simp only [parseContactExchangeBytes, hdec]
  · have hdec : w.withCborCodec.decodeExchange contactExchangeBytes contactExchange.zero
        = .ok e := by
      show Cbor.decodeExchange contactExchangeBytes contactExchange.zero = .ok e
      simp only [Cbor.decodeExchange, hmap, hset]
    simp only [parseContactExchangeBytes, hdec]
  · exact Cbor.setExchangeFields_absent kvs contactExchange.zero e hset

/-- C6 (amended), at the map of the one pair "SignedKeyExchange" nil: the parse
succeeds and the spool writer, which has no key in the map, is nil. -/
theorem parseContactExchangeBytes_checks_no_field_presence_witness :
    parseContactExchangeBytes refWorld.withCborCodec nilKeyExchangeBytes
      = .ok contactExchange.zero ∧
    contactExchange.zero.SpoolWriter = none :=
  have h := (parseContactExchangeBytes_checks_no_field_presence refWorld
    nilKeyExchangeBytes).2 [(Cbor.keySignedKeyExchange, .null)] contactExchange.zero
    (by decide) (by decide)
  ⟨h.1, h.2.1 (by decide)⟩

/-! ## C7: when `NewContact` fails -/

/-- C7: `NewContact` returns an error, and with it no contact, if and only if
`ratchet.New` fails, or it succeeds and `CreateKeyExchange` fails, or both succeed
and `NewContactExchangeBytes` fails; the error returned is the error of that first
failing step, unchanged, so a failure of `ratchet.New` alone ends the creation. -/
theorem NewContact_fails_exactly_when_a_collaborator_fails (w : World) (heap : Heap)
    (nickname : GoString) (id : Nat)
    (spoolReaderChan : Ptr channels.UnreliableSpoolReaderChannel)
    (session : Ptr session.Session) :
    ((∃ e, (NewContact w heap nickname id spoolReaderChan session).1 = .error e) ↔
      ((∃ e, w.ratchetNew w.randReader = .error e) ∨
       (∃ r e, w.ratchetNew w.randReader = .ok r ∧ w.CreateKeyExchange r = .error e) ∨
       (∃ r k r1 e, w.ratchetNew w.randReader = .ok r ∧ w.CreateKeyExchange r = .ok (k, r1) ∧
          NewContactExchangeBytes w (w.GetSpoolWriter spoolReaderChan) k = .error e))) ∧
    (∀ e, w.ratchetNew w.randReader = .error e →
      (NewContact w heap nickname id spoolReaderChan session).1 = .error e) ∧
    (∀ r e, w.ratchetNew w.randReader = .ok r → w.CreateKeyExchange r = .error e →
      (NewContact w heap nickname id spoolReaderChan session).1 = .error e) ∧
    (∀ r k r1 e, w.ratchetNew w.randReader = .ok r → w.CreateKeyExchange r = .ok (k, r1) →
      NewContactExchangeBytes w (w.GetSpoolWriter spoolReaderChan) k = .error e →
      (NewContact w heap nickname id spoolReaderChan session).1 = .error e) := by
  refine ⟨⟨fun ⟨e, he⟩ => ?_, fun hfail => ?_⟩, fun e hnew => ?_, fun r e hnew hkx => ?_,
    fun r k r1 e hnew hkx hex => ?_⟩
  · rcases NewContact_paths w heap nickname id spoolReaderChan session with
      ⟨e1, h1, _⟩ | ⟨r, e1, h1, h2, _⟩ | ⟨r, k, r1, e1, h1, h2, h3, _⟩ |
      ⟨r, k, r1, exchange, _, _, _, h⟩
    · exact Or.inl ⟨e1, h1⟩
    · exact Or.inr (Or.inl ⟨r, e1, h1, h2⟩)
    · exact Or.inr (Or.inr ⟨r, k, r1, e1, h1, h2, h3⟩)
    · rw [h] at he; simp at he
  · rcases hfail with ⟨e, hnew⟩ | ⟨r, e, hnew, hkx⟩ | ⟨r, k, r1, e, hnew, hkx, hex⟩
    · exact ⟨e, by simp only [NewContact, hnew]⟩
    · exact ⟨e, by simp only [NewContact, hnew, hkx]⟩
    · exact ⟨e, by simp only [NewContact, hnew, hkx, hex]⟩
  · simp only [NewContact, hnew]
  · simp only [NewContact, hnew, hkx]
  · simp only [NewContact, hnew, hkx, hex]

/-- C7, where the random source is unavailable: `NewContact` returns the error of
`ratchet.New`. -/
theorem NewContact_fails_exactly_when_a_collaborator_fails_witness :
    (NewContact noRandomWorld { nextChan := 0 } [97, 108] 1 (some { raw := [9] }) none).1
      = .error errNoRandom :=
  (NewContact_fails_exactly_when_a_collaborator_fails noRandomWorld { nextChan := 0 }
    [97, 108] 1 (some { raw := [9] }) none).2.1 errNoRandom (by decide)

/-! ## C8: when `MarshalBinary` fails -/

/-- C8: `MarshalBinary` fails only if the ratchet's serializer fails. The encoder
writes to a byte slice and every field of `serializedContact` has a type it
encodes, so it has bytes for every record. With the reference encoder, and with
any encoder that has bytes for every record, for every contact whose ratchet
marshals `MarshalBinary` returns bytes and no error, and an error of
`MarshalBinary` is the error of the ratchet's serializer. -/
theorem MarshalBinary_fails_only_if_ratchet_fails (w : World) (c : Contact) :
    (∀ blob, w.ratchetMarshalBinary c.ratchet = .ok blob →
      ∃ b, c.MarshalBinary w.withCborCodec = (.ok b, c)) ∧
    (∀ e, (c.MarshalBinary w.withCborCodec).1 = .error e →
      w.ratchetMarshalBinary c.ratchet = .error e) ∧
    ((∀ s : serializedContact, ∃ b, w.encodeContact s = .ok b) →
      (∀ blob, w.ratchetMarshalBinary c.ratchet = .ok blob →
        ∃ b, c.MarshalBinary w = (.ok b, c)) ∧
      (∀ e, (c.MarshalBinary w).1 = .error e → w.ratchetMarshalBinary c.ratchet = .error e)) := by
  have general : ∀ v : World, (∀ s : serializedContact, ∃ b, v.encodeContact s = .ok b) →
      (∀ blob, v.ratchetMarshalBinary c.ratchet = .ok blob →
        ∃ b, c.MarshalBinary v = (.ok b, c)) ∧
      (∀ e, (c.MarshalBinary v).1 = .error e → v.ratchetMarshalBinary c.ratchet = .error e) := by
    intro v hacc
    refine ⟨fun blob hblob => ?_, fun e he => ?_⟩
    · obtain ⟨b, henc⟩ := hacc (c.record blob)
      exact ⟨b, MarshalBinary_of_ok hblob henc⟩
    · cases hblob : v.ratchetMarshalBinary c.ratchet with
      | error e1 =>
        rw [MarshalBinary_of_ratchet_error hblob] at he
        exact he
      | ok blob =>
        obtain ⟨b, henc⟩ := hacc (c.record blob)
        rw [MarshalBinary_of_ok hblob henc] at he
        simp at he
  have hcbor := general w.withCborCodec (fun s => ⟨_, rfl⟩)
  exact ⟨hcbor.1, hcbor.2, general w⟩

/-- C8, at `alice` in `refWorld`: her ratchet marshals, and `MarshalBinary`
returns bytes and no error. -/
theorem MarshalBinary_fails_only_if_ratchet_fails_witness :
    refWorld.ratchetMarshalBinary alice.ratchet = .ok [1, 7, 75] ∧
    ∃ b, alice.MarshalBinary refWorld.withCborCodec = (.ok b, alice) :=
  ⟨by decide,
    (MarshalBinary_fails_only_if_ratchet_fails refWorld alice).1 [1, 7, 75] (by decide)⟩

/-! ## C9: when `UnmarshalBinary` fails -/

/-- C9: for every receiver and input, `UnmarshalBinary` returns no error if and
only if `ratchet.New`, the decoding of the input into a zero-valued
`serializedContact` and the restore of the ratchet from the decoded `Ratchet`
blob all succeed; otherwise it returns, unchanged, the error of the first of the
three that fails. -/
theorem UnmarshalBinary_failure_conditions (w : World) (c : Contact) (data : Bytes) :
    ((c.UnmarshalBinary w data).1 = none ↔
      ∃ r s r1, w.ratchetNew w.randReader = .ok r ∧
        w.decodeContact data serializedContact.zero = .ok s ∧
        w.ratchetUnmarshalBinary r s.Ratchet = .ok r1) ∧
    (∀ e, w.ratchetNew w.randReader = .error e → (c.UnmarshalBinary w data).1 = some e) ∧
    (∀ r e, w.ratchetNew w.randReader = .ok r →
      w.decodeContact data serializedContact.zero = .error e →
      (c.UnmarshalBinary w data).1 = some e) ∧
    (∀ r s e, w.ratchetNew w.randReader = .ok r →
      w.decodeContact data serializedContact.zero = .ok s →
      w.ratchetUnmarshalBinary r s.Ratchet = .error e →
      (c.UnmarshalBinary w data).1 = some e) := by
  refine ⟨⟨fun hnone => ?_, fun ⟨r, s, r1, hnew, hdec, hres⟩ => ?_⟩, fun e hnew => ?_,
    fun r e hnew hdec => ?_, fun r s e hnew hdec hres => ?_⟩
  · rcases UnmarshalBinary_paths w c data with
      ⟨e, _, h⟩ | ⟨r, e, _, _, h⟩ | ⟨r, s, e, _, _, _, h⟩ | ⟨r, s, r1, hnew, hdec, hres, _⟩
    · rw [h] at hnone; simp at hnone
    · rw [h] at hnone; simp at hnone
    · rw [h] at hnone; simp at hnone
    · exact ⟨r, s, r1, hnew, hdec, hres⟩
  · rw [UnmarshalBinary_of_ok hnew hdec hres]
  · rw [UnmarshalBinary_of_new_error hnew]
  · rw [UnmarshalBinary_of_decode_error hnew hdec]
  · rw [UnmarshalBinary_of_restore_error hnew hdec hres]

/-- C9, at a record cut short: the decoder's error comes back as it is. -/
theorem UnmarshalBinary_failure_conditions_witness :
    (bob.UnmarshalBinary refWorld truncatedBytes).1 = some errDecode :=
  (UnmarshalBinary_failure_conditions refWorld bob truncatedBytes).2.2.1
    (some { state := [7] }) errDecode (by decide) (by decide)

/-! ## C10: the shutdown channel is not persisted -/

/-- C10: the bytes `MarshalBinary` returns are the same for two contacts that
differ in pandaShutdownChan only; `MarshalBinary` leaves the receiver as it was;
a successful `UnmarshalBinary` sets the eight persisted fields to the decoded
record and the restored ratchet, which are the same whatever the receiver was,
and leaves the receiver's pandaShutdownChan as it was, so that a zero-valued
contact restored from bytes has a nil pandaShutdownChan. -/
theorem pandaShutdownChan_is_not_persisted (w : World) (c receiver other : Contact)
    (ch : Ptr Chan) (data : Bytes) :
    (Contact.MarshalBinary w { c with pandaShutdownChan := ch }).1 = (c.MarshalBinary w).1 ∧
    (c.MarshalBinary w).2 = c ∧
    ((receiver.UnmarshalBinary w data).1 = none →
      ∃ s r1, w.decodeContact data serializedContact.zero = .ok s ∧
        (receiver.UnmarshalBinary w data).2 = receiver.restored s r1 ∧
        other.UnmarshalBinary w data = (none, other.restored s r1)) ∧
    ((receiver.UnmarshalBinary w data).1 = none →
      (receiver.UnmarshalBinary w data).2.pandaShutdownChan = receiver.pandaShutdownChan) ∧
    ((Contact.zero.UnmarshalBinary w data).1 = none →
      (Contact.zero.UnmarshalBinary w data).2.pandaShutdownChan = none) := by
  have key : ∀ x : Contact, (x.UnmarshalBinary w data).1 = none →
      ∃ r s r1, w.ratchetNew w.randReader = .ok r ∧
        w.decodeContact data serializedContact.zero = .ok s ∧
        w.ratchetUnmarshalBinary r s.Ratchet = .ok r1 := by
    intro x hnone
    rcases UnmarshalBinary_paths w x data with
      ⟨e, _, h⟩ | ⟨r, e, _, _, h⟩ | ⟨r, s, e, _, _, _, h⟩ | ⟨r, s, r1, hnew, hdec, hres, _⟩
    · rw [h] at hnone; simp at hnone
    · rw [h] at hnone; simp at hnone
    · rw [h] at hnone; simp at hnone
    · exact ⟨r, s, r1, hnew, hdec, hres⟩
  refine ⟨?_, ?_, fun hnone => ?_, fun hnone => ?_, fun hnone => ?_⟩
  · cases hblob : w.ratchetMarshalBinary c.ratchet with
    | error e => simp only [Contact.MarshalBinary, hblob]
    | ok blob =>
      cases henc : w.encodeContact (c.record blob) with
      | error e =>
        simp only [Contact.record] at henc
        simp only [Contact.MarshalBinary, hblob, henc]
      | ok b =>
        simp only [Contact.record] at henc
        simp only [Contact.MarshalBinary, hblob, henc]
  · cases hblob : w.ratchetMarshalBinary c.ratchet with
    | error e => rw [MarshalBinary_of_ratchet_error hblob]
    | ok blob =>
      cases henc : w.encodeContact (c.record blob) with
      | error e => rw [MarshalBinary_of_encode_error hblob henc]
      | ok b => rw [MarshalBinary_of_ok hblob henc]
  · obtain ⟨r, s, r1, hnew, hdec, hres⟩ := key receiver hnone
    exact ⟨s, r1, hdec, by rw [UnmarshalBinary_of_ok hnew hdec hres],
      UnmarshalBinary_of_ok hnew hdec hres⟩
  · obtain ⟨r, s, r1, hnew, hdec, hres⟩ := key receiver hnone
    rw [UnmarshalBinary_of_ok hnew hdec hres]
    rfl
  · obtain ⟨r, s, r1, hnew, hdec, hres⟩ := key Contact.zero hnone
    rw [UnmarshalBinary_of_ok hnew hdec hres]
    rfl

/-- C10, at `alice`: her bytes restored into a zero-valued contact give her eight
persisted fields and a nil pandaShutdownChan. -/
theorem pandaShutdownChan_is_not_persisted_witness :
    (Contact.zero.UnmarshalBinary refWorld aliceBytes).1 = none ∧
    (Contact.zero.UnmarshalBinary refWorld aliceBytes).2.pandaShutdownChan = none ∧
    (Contact.zero.UnmarshalBinary refWorld aliceBytes).2 =
      { alice with pandaShutdownChan := none } :=
  ⟨by decide,
    (pandaShutdownChan_is_not_persisted refWorld alice Contact.zero bob (some 5)
      aliceBytes).2.2.2.2 (by decide),
    by decide⟩

end Catshadow
